import Mathlib

set_option autoImplicit false

/-
Verification of the command workflow layer of the googleapis generator CLI.

The Go sources contain two variants of the package command, each defining the
three commands configure, generate and update-repo, plus the output allocator
defaultOutput, the check verifyLanguageRepoExists, and the publisher stubs
commit and push.  The two variants are embedded below as namespaces V1 and V2
(V1 is the first, language-aware variant; V2 is the second variant).

External collaborators (git cloning, the container driver, the filesystem and
the system temp root) are modelled as oracle fields of an Env record.  Each
workflow run returns the Go error value, the final global flag state, and the
ordered list of side-effecting steps performed, so that sequencing and
abort-on-error behaviour can be stated exactly.
-/

/-- GoError models a Go error value: errorf is fmt.Errorf without a wrap verb,
wrap is fmt.Errorf with a cause attached through the w verb. -/
inductive GoError where
  | errorf (msg : String)
  | wrap (msg : String) (cause : GoError)
  deriving DecidableEq, Repr

/-- digitChar maps a decimal digit value to its character. -/
def digitChar (n : Nat) : Char :=
  match n with
  | 0 => '0'
  | 1 => '1'
  | 2 => '2'
  | 3 => '3'
  | 4 => '4'
  | 5 => '5'
  | 6 => '6'
  | 7 => '7'
  | 8 => '8'
  | _ => '9'

/-- digit models a zero-padded decimal digit character as produced by the Go
time formatting routine: the character for n mod 10. -/
def digit (n : Nat) : Char :=
  digitChar (n % 10)

/-- GoTime models a Go time.Time value: calendar fields down to seconds plus a
nanosecond component that second-resolution formatting ignores. -/
structure GoTime where
  year : Nat
  month : Nat
  day : Nat
  hour : Nat
  minute : Nat
  second : Nat
  nanosecond : Nat
  deriving DecidableEq, Repr

/-- goTimeFormat models t.Format with layout 20060102150405: a fixed-width,
zero-padded, second-resolution decimal timestamp (yyyyMMddHHmmss). -/
def goTimeFormat (t : GoTime) : String :=
  String.mk
    [digit (t.year / 1000), digit (t.year / 100), digit (t.year / 10), digit t.year,
     digit (t.month / 10), digit t.month,
     digit (t.day / 10), digit t.day,
     digit (t.hour / 10), digit t.hour,
     digit (t.minute / 10), digit t.minute,
     digit (t.second / 10), digit t.second]

/-- GoTime.truncSecond is the timestamp truncated to the second: the
nanosecond component is dropped. -/
def GoTime.truncSecond (t : GoTime) : GoTime :=
  { t with nanosecond := 0 }

/-- GoTime.Valid states that the calendar fields are in their usual ranges, so
that each one fits its fixed-width slot of the layout 20060102150405. -/
def GoTime.Valid (t : GoTime) : Prop :=
  t.year ≤ 9999 ∧ t.month ≤ 12 ∧ t.day ≤ 31 ∧ t.hour ≤ 23 ∧ t.minute ≤ 59 ∧ t.second ≤ 59

instance (t : GoTime) : Decidable t.Valid := by
  unfold GoTime.Valid
  infer_instance

/-- filepathJoin models Go filepath.Join on two components, for component
strings that carry no redundant separators (the only shapes the command layer
produces). -/
def filepathJoin (a b : String) : String :=
  if a = "" then b
  else if b = "" then a
  else a ++ "/" ++ b

/-- splitSlash splits a character list at every slash, keeping empty
components, so that a path becomes its list of components. -/
def splitSlash : List Char → List (List Char)
  | [] => [[]]
  | c :: rest =>
    match splitSlash rest with
    | [] => [[]]
    | comp :: comps => if c = '/' then [] :: comp :: comps else (c :: comp) :: comps

/-- joinSlash rebuilds a character list from path components, putting a slash
between adjacent components. -/
def joinSlash : List (List Char) → List Char
  | [] => []
  | [comp] => comp
  | comp :: comps => comp ++ '/' :: joinSlash comps

/-- filepathDir models Go filepath.Dir for slash-separated paths without
duplicate separators: everything before the final separator, with the Go
special cases for a separator-free path and for a root child. -/
def filepathDir (p : String) : String :=
  let parts := splitSlash p.data
  if parts.length ≤ 1 then "."
  else
    let dir := String.mk (joinSlash parts.dropLast)
    if dir = "" then "/" else dir

/-- goQuote models the Go format verb q on strings that need no escaping: the
string surrounded by double quotes. -/
def goQuote (s : String) : String :=
  "\"" ++ s ++ "\""

deriving instance DecidableEq for Except

/-- StatResult models the outcome of os.Stat as the command layer inspects it:
no error, an error satisfying os.IsNotExist, or any other error. -/
inductive StatResult where
  | ok
  | notExist
  | otherErr (e : GoError)
  deriving DecidableEq, Repr

/-- Step records one side-effecting call performed by a workflow run, with the
arguments it was given, in execution order. -/
inductive Step where
  | cloneGoogleapis
  | cloneLanguageRepo (language : String)
  | statPath (path : String)
  | mkdirPath (path : String)
  | driverConfigure (language apiRoot apiPath generatorInput : String)
  | driverGenerate (language apiRoot apiPath output generatorInput : String)
  | driverClean (language output apiPath : String)
  | driverBuild (language output apiPath : String)
  | publisherCommit
  | publisherPush
  deriving DecidableEq, Repr

/-- Flags models the process-wide flag variables of package command, populated
from the CLI before a workflow runs and mutated only through the fields the
workflows assign. -/
structure Flags where
  language : String
  apiRoot : String
  apiPath : String
  repoRoot : String
  output : String
  generatorInput : String
  push : Bool
  githubToken : String
  branch : String
  deriving DecidableEq, Repr

/-- Env bundles the external collaborators of the first command variant as
pure oracles: the supported-language map, the two clone operations (each
yields the local directory of the clone or an error), the system temp root,
os.Stat and os.Mkdir as the code inspects them, and the four container driver
operations. -/
structure Env where
  supportedLanguages : String → Bool
  cloneGoogleapis : Except GoError String
  cloneLanguageRepo : String → Except GoError String
  tempDir : String
  stat : String → StatResult
  mkdir : String → Option GoError
  configure : String → String → String → String → Option GoError
  generate : String → String → String → String → String → Option GoError
  clean : String → String → String → Option GoError
  build : String → String → String → Option GoError

/-- allocPath is the directory name the output allocator computes for a
timestamp: generator- followed by the formatted time, under the temp root. -/
def allocPath (env : Env) (t : GoTime) : String :=
  filepathJoin env.tempDir ("generator-" ++ goTimeFormat t)

/-- withSteps prepends already-performed steps to the outcome of the rest of a
run. -/
def withSteps (pre : List Step) (r : Option GoError × Flags × List Step) :
    Option GoError × Flags × List Step :=
  (r.1, r.2.1, pre ++ r.2.2)

/-- defaultOutput embeds the Go function defaultOutput: build the path from
the timestamp, stat it; if absent create it (wrapping a creation error), if
present fail with already exists, and wrap any other stat error.  The second
component records the filesystem calls made. -/
def defaultOutput (env : Env) (t : GoTime) : Except GoError String × List Step :=
  let path := allocPath env t
  match env.stat path with
  | StatResult.notExist =>
    match env.mkdir path with
    | some e =>
      (Except.error (GoError.wrap ("unable to create default output path \x27" ++ path ++ "\x27") e),
       [Step.statPath path, Step.mkdirPath path])
    | none => (Except.ok path, [Step.statPath path, Step.mkdirPath path])
  | StatResult.ok =>
    (Except.error (GoError.errorf ("default output path already exists: " ++ path)),
     [Step.statPath path])
  | StatResult.otherErr e =>
    (Except.error (GoError.wrap ("unable to check directory \x27" ++ path ++ "\x27") e),
     [Step.statPath path])

/-- verifyLanguageRepoExists embeds the Go function of the same name: stat the
directory google-cloud-language under repoRoot; nil on success, a not-found
error when the stat reports not-exist, and a wrapped error otherwise. -/
def verifyLanguageRepoExists (env : Env) (repoRoot language : String) :
    Option GoError × List Step :=
  let path := filepathJoin repoRoot ("google-cloud-" ++ language)
  match env.stat path with
  | StatResult.ok => (none, [Step.statPath path])
  | StatResult.notExist =>
    (some (GoError.errorf ("language repo not found: " ++ path)), [Step.statPath path])
  | StatResult.otherErr e =>
    (some (GoError.wrap ("unable to check language repo \x27" ++ path ++ "\x27") e),
     [Step.statPath path])

namespace V1

/-- commit embeds the first-variant publisher stub: always the not-implemented
error. -/
def commit : Option GoError :=
  some (GoError.errorf "commit is not implemented")

/-- push embeds the first-variant publisher stub: always the not-implemented
error. -/
def push : Option GoError :=
  some (GoError.errorf "push is not implemented")

/-- CmdConfigureRun embeds the Run function of CmdConfigure in the first
variant: validate apiRoot, apiPath, language membership and the push token
rule in that order, then invoke the container Configure operation. -/
def CmdConfigureRun (env : Env) (f : Flags) : Option GoError × List Step :=
  if f.apiRoot = "" then
    (some (GoError.errorf "-api-root is not provided"), [])
  else if f.apiPath = "" then
    (some (GoError.errorf "-api-path is not provided"), [])
  else if env.supportedLanguages f.language = false then
    (some (GoError.errorf ("invalid -language flag specified: " ++ goQuote f.language)), [])
  else if f.push && f.githubToken = "" then
    (some (GoError.errorf "-github-token must be provided if -push is set to true"), [])
  else
    (env.configure f.language f.apiRoot f.apiPath f.generatorInput,
     [Step.driverConfigure f.language f.apiRoot f.apiPath f.generatorInput])

/-- CmdGenerateInvoke is the final statement of the generate Run function: the
container Generate call on the resolved flag values. -/
def CmdGenerateInvoke (env : Env) (f : Flags) : Option GoError × Flags × List Step :=
  (env.generate f.language f.apiRoot f.apiPath f.output f.generatorInput, f,
   [Step.driverGenerate f.language f.apiRoot f.apiPath f.output f.generatorInput])

/-- CmdGenerateOutputPhase is the block of the generate Run function that
allocates a default output directory when the output flag is empty. -/
def CmdGenerateOutputPhase (env : Env) (t : GoTime) (f : Flags) :
    Option GoError × Flags × List Step :=
  if f.output = "" then
    match defaultOutput env t with
    | (Except.error e, tr) => (some e, f, tr)
    | (Except.ok path, tr) => withSteps tr (CmdGenerateInvoke env { f with output := path })
  else CmdGenerateInvoke env f

/-- CmdGenerateVerifyPhase is the block of the generate Run function that
checks the language repository exists under repoRoot. -/
def CmdGenerateVerifyPhase (env : Env) (t : GoTime) (f : Flags) :
    Option GoError × Flags × List Step :=
  match verifyLanguageRepoExists env f.repoRoot f.language with
  | (some e, tr) => (some e, f, tr)
  | (none, tr) => withSteps tr (CmdGenerateOutputPhase env t f)

/-- CmdGenerateRepoRootPhase is the block of the generate Run function that
clones the language repository when repoRoot is empty and sets repoRoot to the
parent directory of the clone. -/
def CmdGenerateRepoRootPhase (env : Env) (t : GoTime) (f : Flags) :
    Option GoError × Flags × List Step :=
  if f.repoRoot = "" then
    match env.cloneLanguageRepo f.language with
    | Except.error e => (some e, f, [Step.cloneLanguageRepo f.language])
    | Except.ok dir =>
      withSteps [Step.cloneLanguageRepo f.language]
        (CmdGenerateVerifyPhase env t { f with repoRoot := filepathDir dir })
  else CmdGenerateVerifyPhase env t f

/-- CmdGenerateAPIRootPhase is the block of the generate Run function that
clones the googleapis repository when apiRoot is empty and sets apiRoot to the
clone directory. -/
def CmdGenerateAPIRootPhase (env : Env) (t : GoTime) (f : Flags) :
    Option GoError × Flags × List Step :=
  if f.apiRoot = "" then
    match env.cloneGoogleapis with
    | Except.error e => (some e, f, [Step.cloneGoogleapis])
    | Except.ok dir =>
      withSteps [Step.cloneGoogleapis]
        (CmdGenerateRepoRootPhase env t { f with apiRoot := dir })
  else CmdGenerateRepoRootPhase env t f

/-- CmdGenerateRun embeds the Run function of CmdGenerate in the first
variant: validate apiPath and language, then resolve apiRoot, repoRoot, the
existence check and the output directory, and invoke the container Generate
operation. -/
def CmdGenerateRun (env : Env) (t : GoTime) (f : Flags) :
    Option GoError × Flags × List Step :=
  if f.apiPath = "" then
    (some (GoError.errorf "-api-path is not provided"), f, [])
  else if env.supportedLanguages f.language = false then
    (some (GoError.errorf ("invalid -language flag specified: " ++ goQuote f.language)), f, [])
  else CmdGenerateAPIRootPhase env t f

/-- CmdUpdateRepoStepsPhase is the tail of the update-repo Run function: the
container Generate, Clean and Build calls followed by commit and push, each
gated on the success of the one before. -/
def CmdUpdateRepoStepsPhase (env : Env) (f : Flags) :
    Option GoError × Flags × List Step :=
  match env.generate f.language f.apiRoot f.apiPath f.output f.generatorInput with
  | some e =>
    (some e, f, [Step.driverGenerate f.language f.apiRoot f.apiPath f.output f.generatorInput])
  | none =>
    match env.clean f.language f.output f.apiPath with
    | some e =>
      (some e, f,
       [Step.driverGenerate f.language f.apiRoot f.apiPath f.output f.generatorInput,
        Step.driverClean f.language f.output f.apiPath])
    | none =>
      match env.build f.language f.output f.apiPath with
      | some e =>
        (some e, f,
         [Step.driverGenerate f.language f.apiRoot f.apiPath f.output f.generatorInput,
          Step.driverClean f.language f.output f.apiPath,
          Step.driverBuild f.language f.output f.apiPath])
      | none =>
        match commit with
        | some e =>
          (some e, f,
           [Step.driverGenerate f.language f.apiRoot f.apiPath f.output f.generatorInput,
            Step.driverClean f.language f.output f.apiPath,
            Step.driverBuild f.language f.output f.apiPath,
            Step.publisherCommit])
        | none =>
          (push, f,
           [Step.driverGenerate f.language f.apiRoot f.apiPath f.output f.generatorInput,
            Step.driverClean f.language f.output f.apiPath,
            Step.driverBuild f.language f.output f.apiPath,
            Step.publisherCommit, Step.publisherPush])

/-- CmdUpdateRepoCloneLangPhase is the block of the update-repo Run function
that clones the language repository unconditionally, discarding the clone
location. -/
def CmdUpdateRepoCloneLangPhase (env : Env) (f : Flags) :
    Option GoError × Flags × List Step :=
  match env.cloneLanguageRepo f.language with
  | Except.error e => (some e, f, [Step.cloneLanguageRepo f.language])
  | Except.ok _ =>
    withSteps [Step.cloneLanguageRepo f.language] (CmdUpdateRepoStepsPhase env f)

/-- CmdUpdateRepoOutputPhase is the block of the update-repo Run function that
allocates a default output directory when the output flag is empty. -/
def CmdUpdateRepoOutputPhase (env : Env) (t : GoTime) (f : Flags) :
    Option GoError × Flags × List Step :=
  if f.output = "" then
    match defaultOutput env t with
    | (Except.error e, tr) => (some e, f, tr)
    | (Except.ok path, tr) =>
      withSteps tr (CmdUpdateRepoCloneLangPhase env { f with output := path })
  else CmdUpdateRepoCloneLangPhase env f

/-- CmdUpdateRepoAPIRootPhase is the block of the update-repo Run function
that clones the googleapis repository when apiRoot is empty. -/
def CmdUpdateRepoAPIRootPhase (env : Env) (t : GoTime) (f : Flags) :
    Option GoError × Flags × List Step :=
  if f.apiRoot = "" then
    match env.cloneGoogleapis with
    | Except.error e => (some e, f, [Step.cloneGoogleapis])
    | Except.ok dir =>
      withSteps [Step.cloneGoogleapis]
        (CmdUpdateRepoOutputPhase env t { f with apiRoot := dir })
  else CmdUpdateRepoOutputPhase env t f

/-- CmdUpdateRepoRun embeds the Run function of CmdUpdateRepo in the first
variant: validate apiPath and language, resolve apiRoot and output, clone the
language repository unconditionally, then Generate, Clean, Build, commit and
push in order. -/
def CmdUpdateRepoRun (env : Env) (t : GoTime) (f : Flags) :
    Option GoError × Flags × List Step :=
  if f.apiPath = "" then
    (some (GoError.errorf "-api-path is not provided"), f, [])
  else if env.supportedLanguages f.language = false then
    (some (GoError.errorf ("invalid -language flag specified: " ++ goQuote f.language)), f, [])
  else CmdUpdateRepoAPIRootPhase env t f

end V1

namespace V2

/-- Env bundles the external collaborators of the second command variant,
whose container driver operations take no language argument. -/
structure Env where
  configure : String → String → String → Option GoError
  generate : String → String → String → String → Option GoError
  clean : String → String → Option GoError
  build : String → String → Option GoError

/-- commit embeds the second-variant publisher stub: always nil. -/
def commit : Option GoError :=
  none

/-- push embeds the second-variant publisher stub: always nil. -/
def push : Option GoError :=
  none

/-- CmdUpdateRepoRun embeds the Run function of CmdUpdateRepo in the second
variant: no validation or resolution, just Generate, Clean, Build, commit and
push in order, each gated on the success of the one before. -/
def CmdUpdateRepoRun (env : Env) (f : Flags) : Option GoError :=
  match env.generate f.apiRoot f.apiPath f.output "" with
  | some e => some e
  | none =>
    match env.clean f.output f.apiPath with
    | some e => some e
    | none =>
      match env.build f.output f.apiPath with
      | some e => some e
      | none =>
        match commit with
        | some e => some e
        | none => push

end V2

/-- updateRepoTailSteps is the canonical ordered tail of the first-variant
update-repo workflow after input resolution: language clone, the three driver
calls, commit and push. -/
def updateRepoTailSteps (language apiRoot apiPath output generatorInput : String) : List Step :=
  [Step.cloneLanguageRepo language,
   Step.driverGenerate language apiRoot apiPath output generatorInput,
   Step.driverClean language output apiPath,
   Step.driverBuild language output apiPath,
   Step.publisherCommit,
   Step.publisherPush]

/-- t0 is a sample timestamp used by the concrete witnesses. -/
def t0 : GoTime :=
  { year := 2024, month := 5, day := 6, hour := 7, minute := 8, second := 9, nanosecond := 0 }

/-- t0n is t0 with a different nanosecond component: the same second. -/
def t0n : GoTime :=
  { t0 with nanosecond := 123 }

/-- t1 is a sample timestamp one second after t0. -/
def t1 : GoTime :=
  { t0 with second := 10 }

/-- envOK is a sample first-variant environment in which every collaborator
succeeds, go is the one supported language, and no path exists yet. -/
def envOK : Env :=
  { supportedLanguages := fun l => l == "go"
    cloneGoogleapis := Except.ok "/g/googleapis"
    cloneLanguageRepo := fun l => Except.ok ("/r/google-cloud-" ++ l)
    tempDir := "/tmp"
    stat := fun _ => StatResult.notExist
    mkdir := fun _ => none
    configure := fun _ _ _ _ => none
    generate := fun _ _ _ _ _ => none
    clean := fun _ _ _ => none
    build := fun _ _ _ => none }

/-- envGen is a sample first-variant environment like envOK in which the stat
of the go client repository path reports success, so the existence check of
the generate workflow passes. -/
def envGen : Env :=
  { envOK with stat := fun p => if p = "/r/google-cloud-go" then StatResult.ok else StatResult.notExist }

/-- fFull is a sample flag state with every input supplied. -/
def fFull : Flags :=
  { language := "go", apiRoot := "/r", apiPath := "a/b", repoRoot := "/p", output := "/o",
    generatorInput := "", push := false, githubToken := "", branch := "" }

/-- fEmpty is a sample flag state in which apiRoot, repoRoot and output are
empty and must be resolved. -/
def fEmpty : Flags :=
  { language := "go", apiRoot := "", apiPath := "a/b", repoRoot := "", output := "",
    generatorInput := "", push := false, githubToken := "", branch := "" }

/-- fPushNoTok is fFull with the push flag set and no github token. -/
def fPushNoTok : Flags :=
  { fFull with push := true, githubToken := "" }

/-- envCleanFail is envOK with a container Clean operation that always
fails. -/
def envCleanFail : Env :=
  { envOK with clean := fun _ _ _ => some (GoError.errorf "clean failed") }

/-- envStatOK is envOK with an os.Stat oracle that reports every path as
existing. -/
def envStatOK : Env :=
  { envOK with stat := fun _ => StatResult.ok }

/-- envStatErr is envOK with an os.Stat oracle that always fails with an error
other than not-exist. -/
def envStatErr : Env :=
  { envOK with stat := fun _ => StatResult.otherErr (GoError.errorf "io error") }

/-- envMkdirFail is envOK with an os.Mkdir oracle that always fails. -/
def envMkdirFail : Env :=
  { envOK with mkdir := fun _ => some (GoError.errorf "permission denied") }

/-- envV2OK is a sample second-variant environment in which every collaborator
succeeds. -/
def envV2OK : V2.Env :=
  { configure := fun _ _ _ => none, generate := fun _ _ _ _ => none,
    clean := fun _ _ => none, build := fun _ _ => none }

/-- C1: for the first-variant update-repo workflow, when every step before the
clean step succeeds and the clean step returns an error, the workflow returns
exactly that error, unmodified, and the trace ends at the clean step: no
build, commit or push step is executed. -/
theorem updateRepo_cleanError_aborts (env : Env) (t : GoTime) (f : Flags)
    (gdir ldir : String) (e : GoError)
    (hpath : f.apiPath ≠ "")
    (hlang : env.supportedLanguages f.language = true)
    (hg : f.apiRoot = "" → env.cloneGoogleapis = Except.ok gdir)
    (ho : f.output = "" →
      env.stat (allocPath env t) = StatResult.notExist ∧ env.mkdir (allocPath env t) = none)
    (hl : env.cloneLanguageRepo f.language = Except.ok ldir)
    (hgen : env.generate f.language (if f.apiRoot = "" then gdir else f.apiRoot) f.apiPath
      (if f.output = "" then allocPath env t else f.output) f.generatorInput = none)
    (hclean : env.clean f.language (if f.output = "" then allocPath env t else f.output)
      f.apiPath = some e) :
    V1.CmdUpdateRepoRun env t f =
      (some e,
       { f with apiRoot := if f.apiRoot = "" then gdir else f.apiRoot,
                output := if f.output = "" then allocPath env t else f.output },
       (if f.apiRoot = "" then [Step.cloneGoogleapis] else []) ++
       (if f.output = "" then
          [Step.statPath (allocPath env t), Step.mkdirPath (allocPath env t)] else []) ++
       [Step.cloneLanguageRepo f.language,
        Step.driverGenerate f.language (if f.apiRoot = "" then gdir else f.apiRoot) f.apiPath
          (if f.output = "" then allocPath env t else f.output) f.generatorInput,
        Step.driverClean f.language (if f.output = "" then allocPath env t else f.output)
          f.apiPath]) := by
  by_cases hr : f.apiRoot = "" <;> by_cases hout : f.output = "" <;>
    simp only [hr, hout, if_pos, if_neg, ite_true, ite_false] at hgen hclean ⊢ <;>
    simp [V1.CmdUpdateRepoRun, V1.CmdUpdateRepoAPIRootPhase, V1.CmdUpdateRepoOutputPhase,
      V1.CmdUpdateRepoCloneLangPhase, V1.CmdUpdateRepoStepsPhase, defaultOutput, withSteps,
      hpath, hlang, hr, hout, hg, hl, hgen, hclean, ho]

/-- C1 witness: a concrete run in which the clean step fails aborts with
exactly the clean error and performs no build, commit or push step. -/
theorem updateRepo_cleanError_aborts_witness :
    V1.CmdUpdateRepoRun envCleanFail t0 fFull =
      (some (GoError.errorf "clean failed"), fFull,
       [Step.cloneLanguageRepo "go", Step.driverGenerate "go" "/r" "a/b" "/o" "",
        Step.driverClean "go" "/o" "a/b"]) :=
  (updateRepo_cleanError_aborts envCleanFail t0 fFull "/g/googleapis" "/r/google-cloud-go"
    (GoError.errorf "clean failed") (by decide) (by decide)
    (fun _ => rfl) (fun h => absurd h (by decide)) rfl (by decide) (by decide)).trans
    (by decide)

/-- Helper: the driver-and-publish tail of the first-variant update-repo
workflow leaves the flags unchanged, performs a prefix of the sequence
generate, clean, build, commit, push, and stops at the first failure. -/
theorem updateRepoStepsPhase_shape (env : Env) (f : Flags) :
    (V1.CmdUpdateRepoStepsPhase env f).2.1 = f ∧
    ∃ rest, (V1.CmdUpdateRepoStepsPhase env f).2.2 ++ rest =
      [Step.driverGenerate f.language f.apiRoot f.apiPath f.output f.generatorInput,
       Step.driverClean f.language f.output f.apiPath,
       Step.driverBuild f.language f.output f.apiPath,
       Step.publisherCommit, Step.publisherPush] := by
  unfold V1.CmdUpdateRepoStepsPhase
  cases hg : env.generate f.language f.apiRoot f.apiPath f.output f.generatorInput with
  | some e => exact ⟨rfl, [Step.driverClean f.language f.output f.apiPath,
      Step.driverBuild f.language f.output f.apiPath,
      Step.publisherCommit, Step.publisherPush], by simp⟩
  | none =>
    cases hc : env.clean f.language f.output f.apiPath with
    | some e => exact ⟨rfl, [Step.driverBuild f.language f.output f.apiPath,
        Step.publisherCommit, Step.publisherPush], by simp⟩
    | none =>
      cases hb : env.build f.language f.output f.apiPath with
      | some e => exact ⟨rfl, [Step.publisherCommit, Step.publisherPush], by simp⟩
      | none => exact ⟨rfl, [Step.publisherPush], by simp [V1.commit]⟩

/-- Helper: the unconditional language clone of the first-variant update-repo
workflow leaves the flags unchanged, always performs the clone step, and
performs a prefix of the canonical tail sequence. -/
theorem updateRepoCloneLangPhase_shape (env : Env) (f : Flags) :
    (V1.CmdUpdateRepoCloneLangPhase env f).2.1 = f ∧
    Step.cloneLanguageRepo f.language ∈ (V1.CmdUpdateRepoCloneLangPhase env f).2.2 ∧
    ∃ rest, (V1.CmdUpdateRepoCloneLangPhase env f).2.2 ++ rest =
      updateRepoTailSteps f.language f.apiRoot f.apiPath f.output f.generatorInput := by
  unfold V1.CmdUpdateRepoCloneLangPhase
  cases hcl : env.cloneLanguageRepo f.language with
  | error e =>
    exact ⟨rfl, by simp,
      [Step.driverGenerate f.language f.apiRoot f.apiPath f.output f.generatorInput,
       Step.driverClean f.language f.output f.apiPath,
       Step.driverBuild f.language f.output f.apiPath,
       Step.publisherCommit, Step.publisherPush], by simp [updateRepoTailSteps]⟩
  | ok dir =>
    obtain ⟨hf, rest, hrest⟩ := updateRepoStepsPhase_shape env f
    exact ⟨by simp [withSteps, hf], by simp [withSteps],
      rest, by simp [withSteps, hrest, updateRepoTailSteps]⟩

/-- C2: the first-variant update-repo workflow executes, after the apiPath and
language validation, the ordered sequence: googleapis clone exactly when
apiRoot is empty, output allocation exactly when output is empty, the language
repository clone unconditionally, then Generate, Clean, Build, commit and
push; whatever the collaborators do, the performed steps form a prefix of this
canonical order, so a step runs only after every earlier step succeeded. -/
theorem updateRepo_ordered_steps (env : Env) (t : GoTime) (f : Flags) (gdir : String)
    (hpath : f.apiPath ≠ "")
    (hlang : env.supportedLanguages f.language = true)
    (hg : f.apiRoot = "" → env.cloneGoogleapis = Except.ok gdir)
    (ho : f.output = "" →
      env.stat (allocPath env t) = StatResult.notExist ∧ env.mkdir (allocPath env t) = none) :
    Step.cloneLanguageRepo f.language ∈ (V1.CmdUpdateRepoRun env t f).2.2 ∧
    (f.apiRoot = "" → Step.cloneGoogleapis ∈ (V1.CmdUpdateRepoRun env t f).2.2) ∧
    (f.output = "" → Step.mkdirPath (allocPath env t) ∈ (V1.CmdUpdateRepoRun env t f).2.2) ∧
    ∃ rest, (V1.CmdUpdateRepoRun env t f).2.2 ++ rest =
      (if f.apiRoot = "" then [Step.cloneGoogleapis] else []) ++
      (if f.output = "" then
        [Step.statPath (allocPath env t), Step.mkdirPath (allocPath env t)] else []) ++
      updateRepoTailSteps f.language (if f.apiRoot = "" then gdir else f.apiRoot) f.apiPath
        (if f.output = "" then allocPath env t else f.output) f.generatorInput := by
  have hrun : V1.CmdUpdateRepoRun env t f = V1.CmdUpdateRepoAPIRootPhase env t f := by
    simp [V1.CmdUpdateRepoRun, hpath, hlang]
  by_cases hr : f.apiRoot = ""
  · have h2 : V1.CmdUpdateRepoAPIRootPhase env t f =
        withSteps [Step.cloneGoogleapis]
          (V1.CmdUpdateRepoOutputPhase env t { f with apiRoot := gdir }) := by
      simp [V1.CmdUpdateRepoAPIRootPhase, hr, hg hr]
    by_cases hout : f.output = ""
    · have h3 : V1.CmdUpdateRepoOutputPhase env t { f with apiRoot := gdir } =
          withSteps [Step.statPath (allocPath env t), Step.mkdirPath (allocPath env t)]
            (V1.CmdUpdateRepoCloneLangPhase env
              { f with apiRoot := gdir, output := allocPath env t }) := by
        simp [V1.CmdUpdateRepoOutputPhase, hout, defaultOutput, (ho hout).1, (ho hout).2]
      obtain ⟨hf, hmem, rest, hrest⟩ := updateRepoCloneLangPhase_shape env
        { f with apiRoot := gdir, output := allocPath env t }
      refine ⟨?_, fun _ => ?_, fun _ => ?_, rest, ?_⟩
      · simp only [hrun, h2, h3, withSteps]
        simp [hmem]
      · simp [hrun, h2, h3, withSteps]
      · simp [hrun, h2, h3, withSteps]
      · simp only [hrun, h2, h3, withSteps]
        simp [hr, hout, hrest]
    · have h3 : V1.CmdUpdateRepoOutputPhase env t { f with apiRoot := gdir } =
          V1.CmdUpdateRepoCloneLangPhase env { f with apiRoot := gdir } := by
        simp [V1.CmdUpdateRepoOutputPhase, hout]
      obtain ⟨hf, hmem, rest, hrest⟩ := updateRepoCloneLangPhase_shape env
        { f with apiRoot := gdir }
      refine ⟨?_, fun _ => ?_, fun h => absurd h hout, rest, ?_⟩
      · simp only [hrun, h2, h3, withSteps]
        simp [hmem]
      · simp [hrun, h2, h3, withSteps]
      · simp only [hrun, h2, h3, withSteps]
        simp [hr, hout, hrest]
  · have h2 : V1.CmdUpdateRepoAPIRootPhase env t f = V1.CmdUpdateRepoOutputPhase env t f := by
      simp [V1.CmdUpdateRepoAPIRootPhase, hr]
    by_cases hout : f.output = ""
    · have h3 : V1.CmdUpdateRepoOutputPhase env t f =
          withSteps [Step.statPath (allocPath env t), Step.mkdirPath (allocPath env t)]
            (V1.CmdUpdateRepoCloneLangPhase env { f with output := allocPath env t }) := by
        simp [V1.CmdUpdateRepoOutputPhase, hout, defaultOutput, (ho hout).1, (ho hout).2]
      obtain ⟨hf, hmem, rest, hrest⟩ := updateRepoCloneLangPhase_shape env
        { f with output := allocPath env t }
      refine ⟨?_, fun h => absurd h hr, fun _ => ?_, rest, ?_⟩
      · simp only [hrun, h2, h3, withSteps]
        simp [hmem]
      · simp [hrun, h2, h3, withSteps]
      · simp only [hrun, h2, h3, withSteps]
        simp [hr, hout, hrest]
    · have h3 : V1.CmdUpdateRepoOutputPhase env t f = V1.CmdUpdateRepoCloneLangPhase env f := by
        simp [V1.CmdUpdateRepoOutputPhase, hout]
      obtain ⟨hf, hmem, rest, hrest⟩ := updateRepoCloneLangPhase_shape env f
      refine ⟨?_, fun h => absurd h hr, fun h => absurd h hout, rest, ?_⟩
      · simp only [hrun, h2, h3]
        exact hmem
      · simp only [hrun, h2, h3]
        simp [hr, hout, hrest]

/-- C2 witness: a concrete all-empty-inputs run resolves apiRoot, allocates an
output directory, clones the language repository and performs a prefix of the
canonical ordered sequence. -/
theorem updateRepo_ordered_steps_witness :
    Step.cloneLanguageRepo fEmpty.language ∈ (V1.CmdUpdateRepoRun envOK t0 fEmpty).2.2 ∧
    (fEmpty.apiRoot = "" → Step.cloneGoogleapis ∈ (V1.CmdUpdateRepoRun envOK t0 fEmpty).2.2) ∧
    (fEmpty.output = "" →
      Step.mkdirPath (allocPath envOK t0) ∈ (V1.CmdUpdateRepoRun envOK t0 fEmpty).2.2) ∧
    ∃ rest, (V1.CmdUpdateRepoRun envOK t0 fEmpty).2.2 ++ rest =
      (if fEmpty.apiRoot = "" then [Step.cloneGoogleapis] else []) ++
      (if fEmpty.output = "" then
        [Step.statPath (allocPath envOK t0), Step.mkdirPath (allocPath envOK t0)] else []) ++
      updateRepoTailSteps fEmpty.language
        (if fEmpty.apiRoot = "" then "/g/googleapis" else fEmpty.apiRoot) fEmpty.apiPath
        (if fEmpty.output = "" then allocPath envOK t0 else fEmpty.output)
        fEmpty.generatorInput :=
  updateRepo_ordered_steps envOK t0 fEmpty "/g/googleapis" (by decide) (by decide)
    (fun _ => rfl) (fun _ => ⟨rfl, rfl⟩)

/-- C3: the first-variant configure workflow validates apiRoot, then apiPath,
then language membership, then the push-token rule, in that fixed order (so
with both apiRoot and apiPath missing the apiRoot error is reported), each
failure naming the offending flag and performing no step; only when all checks
pass is the container Configure operation invoked with language, apiRoot,
apiPath and generatorInput. -/
theorem configure_validation_order (env : Env) (f : Flags) :
    (f.apiRoot = "" →
      V1.CmdConfigureRun env f = (some (GoError.errorf "-api-root is not provided"), [])) ∧
    (f.apiRoot ≠ "" → f.apiPath = "" →
      V1.CmdConfigureRun env f = (some (GoError.errorf "-api-path is not provided"), [])) ∧
    (f.apiRoot ≠ "" → f.apiPath ≠ "" → env.supportedLanguages f.language = false →
      V1.CmdConfigureRun env f =
        (some (GoError.errorf ("invalid -language flag specified: " ++ goQuote f.language)),
         [])) ∧
    (f.apiRoot ≠ "" → f.apiPath ≠ "" → env.supportedLanguages f.language = true →
      f.push = true → f.githubToken = "" →
      V1.CmdConfigureRun env f =
        (some (GoError.errorf "-github-token must be provided if -push is set to true"), [])) ∧
    (f.apiRoot ≠ "" → f.apiPath ≠ "" → env.supportedLanguages f.language = true →
      (f.push = false ∨ f.githubToken ≠ "") →
      V1.CmdConfigureRun env f =
        (env.configure f.language f.apiRoot f.apiPath f.generatorInput,
         [Step.driverConfigure f.language f.apiRoot f.apiPath f.generatorInput])) := by
  refine ⟨fun h1 => ?_, fun h1 h2 => ?_, fun h1 h2 h3 => ?_, fun h1 h2 h3 h4 h5 => ?_,
    fun h1 h2 h3 h45 => ?_⟩
  · simp [V1.CmdConfigureRun, h1]
  · simp [V1.CmdConfigureRun, h1, h2]
  · simp [V1.CmdConfigureRun, h1, h2, h3]
  · simp [V1.CmdConfigureRun, h1, h2, h3, h4, h5]
  · rcases h45 with h4 | h4 <;> simp [V1.CmdConfigureRun, h1, h2, h3, h4]

/-- C3 witness: with both apiRoot and apiPath missing the apiRoot error is the
one reported with no step performed, and a fully valid flag set reaches the
driver Configure call. -/
theorem configure_validation_order_witness :
    V1.CmdConfigureRun envOK fEmpty = (some (GoError.errorf "-api-root is not provided"), []) ∧
    V1.CmdConfigureRun envOK fFull = (none, [Step.driverConfigure "go" "/r" "a/b" ""]) :=
  ⟨(configure_validation_order envOK fEmpty).1 rfl,
   ((configure_validation_order envOK fFull).2.2.2.2 (by decide) (by decide) (by decide)
     (Or.inl rfl)).trans (by decide)⟩

/-- Helper: the apiRoot block of the generate workflow clones googleapis
exactly when apiRoot is empty and continues with apiRoot resolved. -/
theorem CmdGenerateAPIRootPhase_eq (env : Env) (t : GoTime) (f : Flags) (gdir : String)
    (hg : f.apiRoot = "" → env.cloneGoogleapis = Except.ok gdir) :
    V1.CmdGenerateAPIRootPhase env t f =
      withSteps (if f.apiRoot = "" then [Step.cloneGoogleapis] else [])
        (V1.CmdGenerateRepoRootPhase env t
          { f with apiRoot := if f.apiRoot = "" then gdir else f.apiRoot }) := by
  by_cases hr : f.apiRoot = ""
  · simp [V1.CmdGenerateAPIRootPhase, hr, hg hr]
  · simp [V1.CmdGenerateAPIRootPhase, hr, withSteps]

/-- Helper: the repoRoot block of the generate workflow clones the language
repository exactly when repoRoot is empty and continues with repoRoot set to
the parent directory of the clone. -/
theorem CmdGenerateRepoRootPhase_eq (env : Env) (t : GoTime) (f : Flags) (ldir : String)
    (hl : f.repoRoot = "" → env.cloneLanguageRepo f.language = Except.ok ldir) :
    V1.CmdGenerateRepoRootPhase env t f =
      withSteps (if f.repoRoot = "" then [Step.cloneLanguageRepo f.language] else [])
        (V1.CmdGenerateVerifyPhase env t
          { f with repoRoot := if f.repoRoot = "" then filepathDir ldir else f.repoRoot }) := by
  by_cases hrr : f.repoRoot = ""
  · simp [V1.CmdGenerateRepoRootPhase, hrr, hl hrr]
  · simp [V1.CmdGenerateRepoRootPhase, hrr, withSteps]

/-- Helper: when the stat of the language repository path reports success, the
verification block of the generate workflow records the stat and continues. -/
theorem CmdGenerateVerifyPhase_ok (env : Env) (t : GoTime) (f : Flags)
    (hv : env.stat (filepathJoin f.repoRoot ("google-cloud-" ++ f.language)) = StatResult.ok) :
    V1.CmdGenerateVerifyPhase env t f =
      withSteps [Step.statPath (filepathJoin f.repoRoot ("google-cloud-" ++ f.language))]
        (V1.CmdGenerateOutputPhase env t f) := by
  simp [V1.CmdGenerateVerifyPhase, verifyLanguageRepoExists, hv]

/-- Helper: when the stat of the language repository path reports not-exist,
the verification block of the generate workflow fails with the not-found
error and the run stops there. -/
theorem CmdGenerateVerifyPhase_notFound (env : Env) (t : GoTime) (f : Flags)
    (hv : env.stat (filepathJoin f.repoRoot ("google-cloud-" ++ f.language)) =
      StatResult.notExist) :
    V1.CmdGenerateVerifyPhase env t f =
      (some (GoError.errorf
        ("language repo not found: " ++ filepathJoin f.repoRoot ("google-cloud-" ++ f.language))),
       f, [Step.statPath (filepathJoin f.repoRoot ("google-cloud-" ++ f.language))]) := by
  simp [V1.CmdGenerateVerifyPhase, verifyLanguageRepoExists, hv]

/-- Helper: the output block of the generate workflow allocates a default
working directory exactly when output is empty, given that the allocation
succeeds, and continues with output resolved. -/
theorem CmdGenerateOutputPhase_eq (env : Env) (t : GoTime) (f : Flags)
    (ho : f.output = "" →
      env.stat (allocPath env t) = StatResult.notExist ∧ env.mkdir (allocPath env t) = none) :
    V1.CmdGenerateOutputPhase env t f =
      withSteps (if f.output = "" then
          [Step.statPath (allocPath env t), Step.mkdirPath (allocPath env t)] else [])
        (V1.CmdGenerateInvoke env
          { f with output := if f.output = "" then allocPath env t else f.output }) := by
  by_cases hout : f.output = ""
  · simp [V1.CmdGenerateOutputPhase, hout, defaultOutput, (ho hout).1, (ho hout).2]
  · simp [V1.CmdGenerateOutputPhase, hout, withSteps]

/-- C4: the first-variant generate workflow validates apiPath then language
membership, failing with the named error and performing no step (no clone, no
directory creation, no driver call) when validation fails; on success it
clones googleapis exactly when apiRoot is empty, clones the language
repository and derives repoRoot as the parent directory of the clone exactly
when repoRoot is empty, then checks the language repository exists under
repoRoot (failing with the not-found error when the stat reports absence),
allocates a working directory exactly when output is empty, and finally
invokes the container Generate operation on the resolved values. -/
theorem generate_sequence (env : Env) (t : GoTime) (f : Flags) (gdir ldir : String) :
    (f.apiPath = "" →
      V1.CmdGenerateRun env t f = (some (GoError.errorf "-api-path is not provided"), f, [])) ∧
    (f.apiPath ≠ "" → env.supportedLanguages f.language = false →
      V1.CmdGenerateRun env t f =
        (some (GoError.errorf ("invalid -language flag specified: " ++ goQuote f.language)),
         f, [])) ∧
    (f.apiPath ≠ "" → env.supportedLanguages f.language = true →
      (f.apiRoot = "" → env.cloneGoogleapis = Except.ok gdir) →
      (f.repoRoot = "" → env.cloneLanguageRepo f.language = Except.ok ldir) →
      env.stat (filepathJoin (if f.repoRoot = "" then filepathDir ldir else f.repoRoot)
        ("google-cloud-" ++ f.language)) = StatResult.notExist →
      V1.CmdGenerateRun env t f =
        (some (GoError.errorf ("language repo not found: " ++
           filepathJoin (if f.repoRoot = "" then filepathDir ldir else f.repoRoot)
             ("google-cloud-" ++ f.language))),
         { f with apiRoot := if f.apiRoot = "" then gdir else f.apiRoot,
                  repoRoot := if f.repoRoot = "" then filepathDir ldir else f.repoRoot },
         (if f.apiRoot = "" then [Step.cloneGoogleapis] else []) ++
         (if f.repoRoot = "" then [Step.cloneLanguageRepo f.language] else []) ++
         [Step.statPath (filepathJoin (if f.repoRoot = "" then filepathDir ldir else f.repoRoot)
           ("google-cloud-" ++ f.language))])) ∧
    (f.apiPath ≠ "" → env.supportedLanguages f.language = true →
      (f.apiRoot = "" → env.cloneGoogleapis = Except.ok gdir) →
      (f.repoRoot = "" → env.cloneLanguageRepo f.language = Except.ok ldir) →
      env.stat (filepathJoin (if f.repoRoot = "" then filepathDir ldir else f.repoRoot)
        ("google-cloud-" ++ f.language)) = StatResult.ok →
      (f.output = "" →
        env.stat (allocPath env t) = StatResult.notExist ∧ env.mkdir (allocPath env t) = none) →
      V1.CmdGenerateRun env t f =
        (env.generate f.language (if f.apiRoot = "" then gdir else f.apiRoot) f.apiPath
           (if f.output = "" then allocPath env t else f.output) f.generatorInput,
         { f with apiRoot := if f.apiRoot = "" then gdir else f.apiRoot,
                  repoRoot := if f.repoRoot = "" then filepathDir ldir else f.repoRoot,
                  output := if f.output = "" then allocPath env t else f.output },
         (if f.apiRoot = "" then [Step.cloneGoogleapis] else []) ++
         (if f.repoRoot = "" then [Step.cloneLanguageRepo f.language] else []) ++
         [Step.statPath (filepathJoin (if f.repoRoot = "" then filepathDir ldir else f.repoRoot)
           ("google-cloud-" ++ f.language))] ++
         (if f.output = "" then
           [Step.statPath (allocPath env t), Step.mkdirPath (allocPath env t)] else []) ++
         [Step.driverGenerate f.language (if f.apiRoot = "" then gdir else f.apiRoot) f.apiPath
           (if f.output = "" then allocPath env t else f.output) f.generatorInput])) := by
  refine ⟨fun h1 => ?_, fun h1 h2 => ?_, fun h1 h2 hg hl hv => ?_,
    fun h1 h2 hg hl hv ho => ?_⟩
  · simp [V1.CmdGenerateRun, h1]
  · simp [V1.CmdGenerateRun, h1, h2]
  · rw [show V1.CmdGenerateRun env t f = V1.CmdGenerateAPIRootPhase env t f by
        simp [V1.CmdGenerateRun, h1, h2],
      CmdGenerateAPIRootPhase_eq env t f gdir hg,
      CmdGenerateRepoRootPhase_eq env t
        { f with apiRoot := if f.apiRoot = "" then gdir else f.apiRoot } ldir hl,
      CmdGenerateVerifyPhase_notFound env t
        { f with apiRoot := if f.apiRoot = "" then gdir else f.apiRoot,
                 repoRoot := if f.repoRoot = "" then filepathDir ldir else f.repoRoot } hv]
    simp [withSteps]
  · rw [show V1.CmdGenerateRun env t f = V1.CmdGenerateAPIRootPhase env t f by
        simp [V1.CmdGenerateRun, h1, h2],
      CmdGenerateAPIRootPhase_eq env t f gdir hg,
      CmdGenerateRepoRootPhase_eq env t
        { f with apiRoot := if f.apiRoot = "" then gdir else f.apiRoot } ldir hl,
      CmdGenerateVerifyPhase_ok env t
        { f with apiRoot := if f.apiRoot = "" then gdir else f.apiRoot,
                 repoRoot := if f.repoRoot = "" then filepathDir ldir else f.repoRoot } hv,
      CmdGenerateOutputPhase_eq env t
        { f with apiRoot := if f.apiRoot = "" then gdir else f.apiRoot,
                 repoRoot := if f.repoRoot = "" then filepathDir ldir else f.repoRoot } ho]
    simp [withSteps, V1.CmdGenerateInvoke]

/-- C4 witness: an unsupported language fails immediately with the invalid
language error and no step performed, and an all-empty-inputs run with a
supported language resolves every input and reaches the driver Generate
call. -/
theorem generate_sequence_witness :
    V1.CmdGenerateRun envGen t0 { fEmpty with language := "python" } =
      (some (GoError.errorf "invalid -language flag specified: \"python\""),
       { fEmpty with language := "python" }, []) ∧
    V1.CmdGenerateRun envGen t0 fEmpty =
      (none,
       { fEmpty with apiRoot := "/g/googleapis", repoRoot := "/r",
                     output := "/tmp/generator-20240506070809" },
       [Step.cloneGoogleapis, Step.cloneLanguageRepo "go", Step.statPath "/r/google-cloud-go",
        Step.statPath "/tmp/generator-20240506070809",
        Step.mkdirPath "/tmp/generator-20240506070809",
        Step.driverGenerate "go" "/g/googleapis" "a/b" "/tmp/generator-20240506070809" ""]) :=
  ⟨((generate_sequence envGen t0 { fEmpty with language := "python" } "x" "y").2.1
      (by decide) (by decide)).trans (by decide),
   ((generate_sequence envGen t0 fEmpty "/g/googleapis" "/r/google-cloud-go").2.2.2
      (by decide) (by decide) (fun _ => rfl) (fun _ => rfl) (by decide)
      (fun _ => ⟨by decide, rfl⟩)).trans (by decide)⟩

/-- C5: the output allocator builds the fixed path under the system temp root
from the fixed-width second-resolution timestamp (fourteen characters,
independent of the nanosecond component); when the path is absent it creates
the directory and returns the path, wrapping a creation failure; when the
path already exists it fails with the already-exists error without altering
the name; and a stat failure other than not-found is propagated wrapped with
the path context. -/
theorem defaultOutput_spec (env : Env) (t : GoTime) :
    (goTimeFormat t).length = 14 ∧
    (∀ n, goTimeFormat { t with nanosecond := n } = goTimeFormat t) ∧
    allocPath env t = filepathJoin env.tempDir ("generator-" ++ goTimeFormat t) ∧
    (env.stat (allocPath env t) = StatResult.notExist → env.mkdir (allocPath env t) = none →
      defaultOutput env t = (Except.ok (allocPath env t),
        [Step.statPath (allocPath env t), Step.mkdirPath (allocPath env t)])) ∧
    (∀ e, env.stat (allocPath env t) = StatResult.notExist →
      env.mkdir (allocPath env t) = some e →
      (defaultOutput env t).1 = Except.error (GoError.wrap
        ("unable to create default output path \x27" ++ allocPath env t ++ "\x27") e)) ∧
    (env.stat (allocPath env t) = StatResult.ok →
      (defaultOutput env t).1 = Except.error (GoError.errorf
        ("default output path already exists: " ++ allocPath env t))) ∧
    (∀ e, env.stat (allocPath env t) = StatResult.otherErr e →
      (defaultOutput env t).1 = Except.error (GoError.wrap
        ("unable to check directory \x27" ++ allocPath env t ++ "\x27") e)) := by
  refine ⟨rfl, fun n => rfl, rfl, fun h1 h2 => ?_, fun e h1 h2 => ?_, fun h1 => ?_,
    fun e h1 => ?_⟩
  · simp [defaultOutput, h1, h2]
  · simp [defaultOutput, h1, h2]
  · simp [defaultOutput, h1]
  · simp [defaultOutput, h1]

/-- C5 witness: concrete allocator runs exercising creation success, creation
failure, the already-exists collision, and the propagated stat error. -/
theorem defaultOutput_spec_witness :
    defaultOutput envOK t0 = (Except.ok "/tmp/generator-20240506070809",
      [Step.statPath "/tmp/generator-20240506070809",
       Step.mkdirPath "/tmp/generator-20240506070809"]) ∧
    (defaultOutput envMkdirFail t0).1 = Except.error (GoError.wrap
      ("unable to create default output path \x27/tmp/generator-20240506070809\x27")
      (GoError.errorf "permission denied")) ∧
    (defaultOutput envStatOK t0).1 = Except.error (GoError.errorf
      ("default output path already exists: /tmp/generator-20240506070809")) ∧
    (defaultOutput envStatErr t0).1 = Except.error (GoError.wrap
      ("unable to check directory \x27/tmp/generator-20240506070809\x27")
      (GoError.errorf "io error")) :=
  ⟨((defaultOutput_spec envOK t0).2.2.2.1 rfl rfl).trans (by decide),
   ((defaultOutput_spec envMkdirFail t0).2.2.2.2.1 (GoError.errorf "permission denied")
      rfl rfl).trans (by decide),
   ((defaultOutput_spec envStatOK t0).2.2.2.2.2.1 rfl).trans (by decide),
   ((defaultOutput_spec envStatErr t0).2.2.2.2.2.2 (GoError.errorf "io error") rfl).trans
     (by decide)⟩

/-- Helper: digitChar is injective on digit values. -/
theorem digitChar_inj_lt : ∀ x, x < 10 → ∀ y, y < 10 → digitChar x = digitChar y → x = y := by
  decide

/-- Helper: equal digit characters mean equal values modulo ten. -/
theorem digit_inj {a b : Nat} (h : digit a = digit b) : a % 10 = b % 10 :=
  digitChar_inj_lt (a % 10) (Nat.mod_lt a (by norm_num)) (b % 10)
    (Nat.mod_lt b (by norm_num)) h

/-- Helper: the second-resolution format is injective on in-range timestamps,
up to truncation to the second. -/
theorem goTimeFormat_inj {t1 t2 : GoTime} (h1 : t1.Valid) (h2 : t2.Valid)
    (h : goTimeFormat t1 = goTimeFormat t2) : t1.truncSecond = t2.truncSecond := by
  obtain ⟨hy1, hmo1, hd1, hh1, hmi1, hs1⟩ := h1
  obtain ⟨hy2, hmo2, hd2, hh2, hmi2, hs2⟩ := h2
  unfold goTimeFormat at h
  have hdata := congrArg String.data h
  simp only [List.cons.injEq, and_true] at hdata
  obtain ⟨e1, e2, e3, e4, e5, e6, e7, e8, e9, e10, e11, e12, e13, e14⟩ := hdata
  have y : t1.year = t2.year := by
    have q1 := digit_inj e1
    have q2 := digit_inj e2
    have q3 := digit_inj e3
    have q4 := digit_inj e4
    omega
  have mo : t1.month = t2.month := by
    have q1 := digit_inj e5
    have q2 := digit_inj e6
    omega
  have d : t1.day = t2.day := by
    have q1 := digit_inj e7
    have q2 := digit_inj e8
    omega
  have hh : t1.hour = t2.hour := by
    have q1 := digit_inj e9
    have q2 := digit_inj e10
    omega
  have mi : t1.minute = t2.minute := by
    have q1 := digit_inj e11
    have q2 := digit_inj e12
    omega
  have s : t1.second = t2.second := by
    have q1 := digit_inj e13
    have q2 := digit_inj e14
    omega
  simp only [GoTime.truncSecond, GoTime.mk.injEq]
  exact ⟨y, mo, d, hh, mi, s, trivial⟩

/-- Helper: the allocator file name component is never the empty string. -/
theorem genName_ne_empty (t : GoTime) : "generator-" ++ goTimeFormat t ≠ "" := by
  intro h
  have h24 : ("generator-" ++ goTimeFormat t).length = 24 := by
    rw [String.length_append]
    rfl
  rw [h] at h24
  exact absurd h24 (by decide)

/-- Helper: string concatenation cancels on the left. -/
theorem string_append_cancel_left {a b c : String} (h : a ++ b = a ++ c) : b = c := by
  apply String.ext
  have hd := congrArg String.data h
  rw [String.data_append, String.data_append] at hd
  exact List.append_cancel_left hd

/-- Helper: equal allocator paths under one environment force equal formatted
timestamps. -/
theorem allocPath_inj {env : Env} {t1 t2 : GoTime}
    (h : allocPath env t1 = allocPath env t2) : goTimeFormat t1 = goTimeFormat t2 := by
  unfold allocPath filepathJoin at h
  by_cases h0 : env.tempDir = ""
  · rw [if_pos h0, if_pos h0] at h
    exact string_append_cancel_left h
  · rw [if_neg h0, if_neg h0, if_neg (genName_ne_empty t1), if_neg (genName_ne_empty t2)] at h
    exact string_append_cancel_left (string_append_cancel_left h)

/-- Helper: the formatted timestamp only depends on the timestamp truncated to
the second. -/
theorem goTimeFormat_eq_of_truncSecond {t1 t2 : GoTime}
    (h : t1.truncSecond = t2.truncSecond) : goTimeFormat t1 = goTimeFormat t2 := by
  calc goTimeFormat t1 = goTimeFormat t1.truncSecond := rfl
  _ = goTimeFormat t2.truncSecond := by rw [h]
  _ = goTimeFormat t2 := rfl

/-- C6: the allocator path is a deterministic function of the timestamp
truncated to the second: equal-to-the-second timestamps give the same path,
so a second call while that path exists fails with the already-exists error;
in-range timestamps that differ once truncated to the second give distinct
paths, and with both paths absent both allocations succeed. -/
theorem allocate_naming (env envAfter : Env) (t1 t2 : GoTime) :
    (t1.truncSecond = t2.truncSecond → allocPath env t1 = allocPath env t2) ∧
    (t1.truncSecond = t2.truncSecond → envAfter.tempDir = env.tempDir →
      envAfter.stat (allocPath env t1) = StatResult.ok →
      (defaultOutput envAfter t2).1 = Except.error (GoError.errorf
        ("default output path already exists: " ++ allocPath env t1))) ∧
    (t1.Valid → t2.Valid → t1.truncSecond ≠ t2.truncSecond →
      allocPath env t1 ≠ allocPath env t2) ∧
    (t1.truncSecond ≠ t2.truncSecond →
      env.stat (allocPath env t1) = StatResult.notExist →
      env.mkdir (allocPath env t1) = none →
      env.stat (allocPath env t2) = StatResult.notExist →
      env.mkdir (allocPath env t2) = none →
      defaultOutput env t1 = (Except.ok (allocPath env t1),
        [Step.statPath (allocPath env t1), Step.mkdirPath (allocPath env t1)]) ∧
      defaultOutput env t2 = (Except.ok (allocPath env t2),
        [Step.statPath (allocPath env t2), Step.mkdirPath (allocPath env t2)])) := by
  refine ⟨fun hsame => ?_, fun hsame htd hstat => ?_, fun hv1 hv2 hdiff heq => ?_,
    fun hdiff h1 h2 h3 h4 => ?_⟩
  · unfold allocPath
    rw [goTimeFormat_eq_of_truncSecond hsame]
  · have hpath : allocPath envAfter t2 = allocPath env t1 := by
      unfold allocPath
      rw [htd, goTimeFormat_eq_of_truncSecond hsame]
    rw [show (defaultOutput envAfter t2) =
        (Except.error (GoError.errorf
          ("default output path already exists: " ++ allocPath envAfter t2)),
         [Step.statPath (allocPath envAfter t2)]) by
      simp [defaultOutput, hpath, hstat]]
    rw [hpath]
  · exact hdiff (goTimeFormat_inj hv1 hv2 (allocPath_inj heq))
  · exact ⟨by simp [defaultOutput, h1, h2], by simp [defaultOutput, h3, h4]⟩

/-- C6 witness: concrete same-second timestamps share one path and collide,
and timestamps one second apart get distinct paths with both allocations
succeeding. -/
theorem allocate_naming_witness :
    allocPath envOK t0 = allocPath envOK t0n ∧
    (defaultOutput envStatOK t0n).1 = Except.error (GoError.errorf
      ("default output path already exists: " ++ allocPath envOK t0)) ∧
    allocPath envOK t0 ≠ allocPath envOK t1 ∧
    defaultOutput envOK t0 = (Except.ok (allocPath envOK t0),
      [Step.statPath (allocPath envOK t0), Step.mkdirPath (allocPath envOK t0)]) ∧
    defaultOutput envOK t1 = (Except.ok (allocPath envOK t1),
      [Step.statPath (allocPath envOK t1), Step.mkdirPath (allocPath envOK t1)]) :=
  ⟨(allocate_naming envOK envStatOK t0 t0n).1 (by decide),
   (allocate_naming envOK envStatOK t0 t0n).2.1 (by decide) rfl rfl,
   (allocate_naming envOK envOK t0 t1).2.2.1 (by decide) (by decide) (by decide),
   ((allocate_naming envOK envOK t0 t1).2.2.2 (by decide) rfl rfl rfl rfl).1,
   ((allocate_naming envOK envOK t0 t1).2.2.2 (by decide) rfl rfl rfl rfl).2⟩

/-- Helper: the update-repo driver tail ignores the push and githubToken
flags: error and trace are unchanged under any values of the two. -/
theorem updateRepoStepsPhase_pushToken (env : Env) (l ar ap rr o gi b : String)
    (p1 : Bool) (g1 : String) (p2 : Bool) (g2 : String) :
    (V1.CmdUpdateRepoStepsPhase env ⟨l, ar, ap, rr, o, gi, p1, g1, b⟩).1 =
      (V1.CmdUpdateRepoStepsPhase env ⟨l, ar, ap, rr, o, gi, p2, g2, b⟩).1 ∧
    (V1.CmdUpdateRepoStepsPhase env ⟨l, ar, ap, rr, o, gi, p1, g1, b⟩).2.2 =
      (V1.CmdUpdateRepoStepsPhase env ⟨l, ar, ap, rr, o, gi, p2, g2, b⟩).2.2 := by
  unfold V1.CmdUpdateRepoStepsPhase
  dsimp only
  cases hgen : env.generate l ar ap o gi with
  | some e => exact ⟨rfl, rfl⟩
  | none =>
    cases hc : env.clean l o ap with
    | some e => exact ⟨rfl, rfl⟩
    | none =>
      cases hb : env.build l o ap with
      | some e => exact ⟨rfl, rfl⟩
      | none => exact ⟨rfl, rfl⟩

/-- Helper: the unconditional language clone step of update-repo ignores the
push and githubToken flags. -/
theorem updateRepoCloneLangPhase_pushToken (env : Env) (l ar ap rr o gi b : String)
    (p1 : Bool) (g1 : String) (p2 : Bool) (g2 : String) :
    (V1.CmdUpdateRepoCloneLangPhase env ⟨l, ar, ap, rr, o, gi, p1, g1, b⟩).1 =
      (V1.CmdUpdateRepoCloneLangPhase env ⟨l, ar, ap, rr, o, gi, p2, g2, b⟩).1 ∧
    (V1.CmdUpdateRepoCloneLangPhase env ⟨l, ar, ap, rr, o, gi, p1, g1, b⟩).2.2 =
      (V1.CmdUpdateRepoCloneLangPhase env ⟨l, ar, ap, rr, o, gi, p2, g2, b⟩).2.2 := by
  unfold V1.CmdUpdateRepoCloneLangPhase
  dsimp only
  cases hcl : env.cloneLanguageRepo l with
  | error e => exact ⟨rfl, rfl⟩
  | ok dir =>
    obtain ⟨c1, c2⟩ := updateRepoStepsPhase_pushToken env l ar ap rr o gi b p1 g1 p2 g2
    exact ⟨by simp [withSteps, c1], by simp [withSteps, c2]⟩

/-- Helper: the output allocation step of update-repo ignores the push and
githubToken flags. -/
theorem updateRepoOutputPhase_pushToken (env : Env) (t : GoTime) (l ar ap rr o gi b : String)
    (p1 : Bool) (g1 : String) (p2 : Bool) (g2 : String) :
    (V1.CmdUpdateRepoOutputPhase env t ⟨l, ar, ap, rr, o, gi, p1, g1, b⟩).1 =
      (V1.CmdUpdateRepoOutputPhase env t ⟨l, ar, ap, rr, o, gi, p2, g2, b⟩).1 ∧
    (V1.CmdUpdateRepoOutputPhase env t ⟨l, ar, ap, rr, o, gi, p1, g1, b⟩).2.2 =
      (V1.CmdUpdateRepoOutputPhase env t ⟨l, ar, ap, rr, o, gi, p2, g2, b⟩).2.2 := by
  unfold V1.CmdUpdateRepoOutputPhase
  dsimp only
  by_cases hout : o = ""
  · rcases hdo : defaultOutput env t with ⟨r, tr⟩
    cases r with
    | error e => simp [hout, hdo]
    | ok path =>
      obtain ⟨c1, c2⟩ := updateRepoCloneLangPhase_pushToken env l ar ap rr path gi b p1 g1 p2 g2
      exact ⟨by simp [hout, hdo, withSteps, c1], by simp [hout, hdo, withSteps, c2]⟩
  · obtain ⟨c1, c2⟩ := updateRepoCloneLangPhase_pushToken env l ar ap rr o gi b p1 g1 p2 g2
    exact ⟨by simp [hout, c1], by simp [hout, c2]⟩

/-- Helper: the apiRoot resolution step of update-repo ignores the push and
githubToken flags. -/
theorem updateRepoAPIRootPhase_pushToken (env : Env) (t : GoTime) (l ar ap rr o gi b : String)
    (p1 : Bool) (g1 : String) (p2 : Bool) (g2 : String) :
    (V1.CmdUpdateRepoAPIRootPhase env t ⟨l, ar, ap, rr, o, gi, p1, g1, b⟩).1 =
      (V1.CmdUpdateRepoAPIRootPhase env t ⟨l, ar, ap, rr, o, gi, p2, g2, b⟩).1 ∧
    (V1.CmdUpdateRepoAPIRootPhase env t ⟨l, ar, ap, rr, o, gi, p1, g1, b⟩).2.2 =
      (V1.CmdUpdateRepoAPIRootPhase env t ⟨l, ar, ap, rr, o, gi, p2, g2, b⟩).2.2 := by
  unfold V1.CmdUpdateRepoAPIRootPhase
  dsimp only
  by_cases hr : ar = ""
  · cases hcg : env.cloneGoogleapis with
    | error e => simp [hr, hcg]
    | ok dir =>
      obtain ⟨c1, c2⟩ := updateRepoOutputPhase_pushToken env t l dir ap rr o gi b p1 g1 p2 g2
      exact ⟨by simp [hr, hcg, withSteps, c1], by simp [hr, hcg, withSteps, c2]⟩
  · obtain ⟨c1, c2⟩ := updateRepoOutputPhase_pushToken env t l ar ap rr o gi b p1 g1 p2 g2
    exact ⟨by simp [hr, c1], by simp [hr, c2]⟩

/-- Helper: the update-repo workflow ignores the push and githubToken flags
entirely: its error and its performed steps are unchanged under any values of
the two. -/
theorem updateRepoRun_pushToken (env : Env) (t : GoTime) (l ar ap rr o gi b : String)
    (p1 : Bool) (g1 : String) (p2 : Bool) (g2 : String) :
    (V1.CmdUpdateRepoRun env t ⟨l, ar, ap, rr, o, gi, p1, g1, b⟩).1 =
      (V1.CmdUpdateRepoRun env t ⟨l, ar, ap, rr, o, gi, p2, g2, b⟩).1 ∧
    (V1.CmdUpdateRepoRun env t ⟨l, ar, ap, rr, o, gi, p1, g1, b⟩).2.2 =
      (V1.CmdUpdateRepoRun env t ⟨l, ar, ap, rr, o, gi, p2, g2, b⟩).2.2 := by
  unfold V1.CmdUpdateRepoRun
  dsimp only
  by_cases hap : ap = ""
  · simp [hap]
  · cases hsl : env.supportedLanguages l with
    | false => simp [hap, hsl]
    | true =>
      obtain ⟨c1, c2⟩ := updateRepoAPIRootPhase_pushToken env t l ar ap rr o gi b p1 g1 p2 g2
      exact ⟨by simp [hap, hsl, c1], by simp [hap, hsl, c2]⟩

/-- C7 counterexample: in the first variant, an update-repo invocation with
push set and an empty githubToken is not rejected by validation: the driver
Generate step runs, refuting the claim that every workflow rejects this
combination before any generation step. -/
theorem pushToken_claim_counterexample :
    fPushNoTok.push = true ∧ fPushNoTok.githubToken = "" ∧
    Step.driverGenerate "go" "/r" "a/b" "/o" "" ∈ (V1.CmdUpdateRepoRun envOK t0 fPushNoTok).2.2 ∧
    (V1.CmdUpdateRepoRun envOK t0 fPushNoTok).1 =
      some (GoError.errorf "commit is not implemented") := by
  decide

/-- C7 amended: only the configure workflow validates the push-token rule,
rejecting push with an empty githubToken before the driver runs; the
update-repo workflow performs no such validation: its error and its steps are
independent of the push and githubToken values. -/
theorem pushToken_validation_amended (env : Env) (t : GoTime) (f : Flags) :
    (f.apiRoot ≠ "" → f.apiPath ≠ "" → env.supportedLanguages f.language = true →
      f.push = true → f.githubToken = "" →
      V1.CmdConfigureRun env f =
        (some (GoError.errorf "-github-token must be provided if -push is set to true"), [])) ∧
    (∀ p1 g1 p2 g2,
      (V1.CmdUpdateRepoRun env t { f with push := p1, githubToken := g1 }).1 =
        (V1.CmdUpdateRepoRun env t { f with push := p2, githubToken := g2 }).1 ∧
      (V1.CmdUpdateRepoRun env t { f with push := p1, githubToken := g1 }).2.2 =
        (V1.CmdUpdateRepoRun env t { f with push := p2, githubToken := g2 }).2.2) := by
  constructor
  · intro h1 h2 h3 h4 h5
    simp [V1.CmdConfigureRun, h1, h2, h3, h4, h5]
  · intro p1 g1 p2 g2
    exact updateRepoRun_pushToken env t f.language f.apiRoot f.apiPath f.repoRoot f.output
      f.generatorInput f.branch p1 g1 p2 g2

/-- C7 amended witness: configure rejects the concrete push-without-token
flag set, while update-repo returns the same error whether or not push and a
token are supplied. -/
theorem pushToken_validation_amended_witness :
    V1.CmdConfigureRun envOK fPushNoTok =
      (some (GoError.errorf "-github-token must be provided if -push is set to true"), []) ∧
    (V1.CmdUpdateRepoRun envOK t0 { fPushNoTok with push := true, githubToken := "" }).1 =
      (V1.CmdUpdateRepoRun envOK t0 { fPushNoTok with push := false, githubToken := "x" }).1 :=
  ⟨(pushToken_validation_amended envOK t0 fPushNoTok).1 (by decide) (by decide) (by decide)
     (by decide) (by decide),
   ((pushToken_validation_amended envOK t0 fPushNoTok).2 true "" false "x").1⟩

/-- C8: verifyLanguageRepoExists checks the directory google-cloud-language
under repoRoot: no error when the stat succeeds, a descriptive not-found
error when the stat reports not-exist, and any other stat error is wrapped
with the path context, an error distinct from every plain errorf error (in
particular from the not-found error). -/
theorem verifyLanguageRepo_spec (env : Env) (repoRoot language : String) :
    (env.stat (filepathJoin repoRoot ("google-cloud-" ++ language)) = StatResult.ok →
      verifyLanguageRepoExists env repoRoot language =
        (none, [Step.statPath (filepathJoin repoRoot ("google-cloud-" ++ language))])) ∧
    (env.stat (filepathJoin repoRoot ("google-cloud-" ++ language)) = StatResult.notExist →
      verifyLanguageRepoExists env repoRoot language =
        (some (GoError.errorf ("language repo not found: " ++
           filepathJoin repoRoot ("google-cloud-" ++ language))),
         [Step.statPath (filepathJoin repoRoot ("google-cloud-" ++ language))])) ∧
    (∀ e, env.stat (filepathJoin repoRoot ("google-cloud-" ++ language)) =
        StatResult.otherErr e →
      verifyLanguageRepoExists env repoRoot language =
        (some (GoError.wrap ("unable to check language repo \x27" ++
           filepathJoin repoRoot ("google-cloud-" ++ language) ++ "\x27") e),
         [Step.statPath (filepathJoin repoRoot ("google-cloud-" ++ language))]) ∧
      ∀ msg, GoError.wrap ("unable to check language repo \x27" ++
        filepathJoin repoRoot ("google-cloud-" ++ language) ++ "\x27") e ≠
          GoError.errorf msg) := by
  refine ⟨fun h => ?_, fun h => ?_, fun e h => ⟨?_, fun msg hne => ?_⟩⟩
  · simp [verifyLanguageRepoExists, h]
  · simp [verifyLanguageRepoExists, h]
  · simp [verifyLanguageRepoExists, h]
  · exact GoError.noConfusion hne

/-- C8 witness: the three stat outcomes on a concrete repository root. -/
theorem verifyLanguageRepo_spec_witness :
    verifyLanguageRepoExists envStatOK "/p" "go" =
      (none, [Step.statPath "/p/google-cloud-go"]) ∧
    verifyLanguageRepoExists envOK "/p" "go" =
      (some (GoError.errorf "language repo not found: /p/google-cloud-go"),
       [Step.statPath "/p/google-cloud-go"]) ∧
    verifyLanguageRepoExists envStatErr "/p" "go" =
      (some (GoError.wrap "unable to check language repo \x27/p/google-cloud-go\x27"
        (GoError.errorf "io error")),
       [Step.statPath "/p/google-cloud-go"]) :=
  ⟨((verifyLanguageRepo_spec envStatOK "/p" "go").1 rfl).trans (by decide),
   ((verifyLanguageRepo_spec envOK "/p" "go").2.1 rfl).trans (by decide),
   (((verifyLanguageRepo_spec envStatErr "/p" "go").2.2 (GoError.errorf "io error") rfl).1).trans
     (by decide)⟩

/-- Helper: the output allocation step of update-repo writes only the output
field, and only when it was empty. -/
theorem updateRepoOutputPhase_flags (env : Env) (t : GoTime) (f : Flags) :
    ∃ o, (V1.CmdUpdateRepoOutputPhase env t f).2.1 = { f with output := o } ∧
      (f.output ≠ "" → o = f.output) := by
  unfold V1.CmdUpdateRepoOutputPhase
  by_cases hout : f.output = ""
  · rcases hdo : defaultOutput env t with ⟨r, tr⟩
    cases r with
    | error e => exact ⟨f.output, by rw [if_pos hout], fun _ => rfl⟩
    | ok path =>
      refine ⟨path, ?_, fun hne => absurd hout hne⟩
      have hf := (updateRepoCloneLangPhase_shape env { f with output := path }).1
      simp [hout, hdo, withSteps, hf]
  · refine ⟨f.output, ?_, fun _ => rfl⟩
    have hf := (updateRepoCloneLangPhase_shape env f).1
    simp [hout, hf]

/-- Helper: the apiRoot resolution step of update-repo writes only the
apiRoot and output fields, each only when it was empty. -/
theorem updateRepoAPIRootPhase_flags (env : Env) (t : GoTime) (f : Flags) :
    ∃ a o, (V1.CmdUpdateRepoAPIRootPhase env t f).2.1 = { f with apiRoot := a, output := o } ∧
      (f.apiRoot ≠ "" → a = f.apiRoot) ∧ (f.output ≠ "" → o = f.output) := by
  unfold V1.CmdUpdateRepoAPIRootPhase
  by_cases hr : f.apiRoot = ""
  · cases hcg : env.cloneGoogleapis with
    | error e =>
      exact ⟨f.apiRoot, f.output, by rw [if_pos hr], fun _ => rfl, fun _ => rfl⟩
    | ok dir =>
      obtain ⟨o, ho, hoo⟩ := updateRepoOutputPhase_flags env t { f with apiRoot := dir }
      refine ⟨dir, o, ?_, fun hne => absurd hr hne, hoo⟩
      simp [hr, hcg, withSteps, ho]
  · obtain ⟨o, ho, hoo⟩ := updateRepoOutputPhase_flags env t f
    exact ⟨f.apiRoot, o, by simp [hr, ho], fun _ => rfl, hoo⟩

/-- Helper: the update-repo workflow writes only the apiRoot and output
fields, each only when it was empty. -/
theorem updateRepoRun_flags (env : Env) (t : GoTime) (f : Flags) :
    ∃ a o, (V1.CmdUpdateRepoRun env t f).2.1 = { f with apiRoot := a, output := o } ∧
      (f.apiRoot ≠ "" → a = f.apiRoot) ∧ (f.output ≠ "" → o = f.output) := by
  unfold V1.CmdUpdateRepoRun
  by_cases hap : f.apiPath = ""
  · exact ⟨f.apiRoot, f.output, by rw [if_pos hap], fun _ => rfl, fun _ => rfl⟩
  · cases hsl : env.supportedLanguages f.language with
    | false => exact ⟨f.apiRoot, f.output, by simp [hap, hsl], fun _ => rfl, fun _ => rfl⟩
    | true =>
      obtain ⟨a, o, h1, h2, h3⟩ := updateRepoAPIRootPhase_flags env t f
      exact ⟨a, o, by simp [hap, hsl, h1], h2, h3⟩

/-- Helper: the output allocation step of generate writes only the output
field, and only when it was empty. -/
theorem generateOutputPhase_flags (env : Env) (t : GoTime) (f : Flags) :
    ∃ o, (V1.CmdGenerateOutputPhase env t f).2.1 = { f with output := o } ∧
      (f.output ≠ "" → o = f.output) := by
  unfold V1.CmdGenerateOutputPhase
  by_cases hout : f.output = ""
  · rcases hdo : defaultOutput env t with ⟨r, tr⟩
    cases r with
    | error e => exact ⟨f.output, by rw [if_pos hout], fun _ => rfl⟩
    | ok path =>
      exact ⟨path, by simp [hout, hdo, withSteps, V1.CmdGenerateInvoke],
        fun hne => absurd hout hne⟩
  · exact ⟨f.output, by simp [hout, V1.CmdGenerateInvoke], fun _ => rfl⟩

/-- Helper: the verification step of generate writes nothing itself and
passes the flags on. -/
theorem generateVerifyPhase_flags (env : Env) (t : GoTime) (f : Flags) :
    ∃ o, (V1.CmdGenerateVerifyPhase env t f).2.1 = { f with output := o } ∧
      (f.output ≠ "" → o = f.output) := by
  unfold V1.CmdGenerateVerifyPhase
  rcases hv : verifyLanguageRepoExists env f.repoRoot f.language with ⟨r, tr⟩
  cases r with
  | some e => exact ⟨f.output, by simp [hv], fun _ => rfl⟩
  | none =>
    obtain ⟨o, h1, h2⟩ := generateOutputPhase_flags env t f
    exact ⟨o, by simp [hv, withSteps, h1], h2⟩

/-- Helper: the repoRoot resolution step of generate writes only the repoRoot
and output fields, each only when it was empty. -/
theorem generateRepoRootPhase_flags (env : Env) (t : GoTime) (f : Flags) :
    ∃ rr o, (V1.CmdGenerateRepoRootPhase env t f).2.1 =
        { f with repoRoot := rr, output := o } ∧
      (f.repoRoot ≠ "" → rr = f.repoRoot) ∧ (f.output ≠ "" → o = f.output) := by
  unfold V1.CmdGenerateRepoRootPhase
  by_cases hrr : f.repoRoot = ""
  · cases hcl : env.cloneLanguageRepo f.language with
    | error e =>
      exact ⟨f.repoRoot, f.output, by rw [if_pos hrr], fun _ => rfl, fun _ => rfl⟩
    | ok dir =>
      obtain ⟨o, h1, h2⟩ := generateVerifyPhase_flags env t { f with repoRoot := filepathDir dir }
      exact ⟨filepathDir dir, o, by simp [hrr, hcl, withSteps, h1],
        fun hne => absurd hrr hne, h2⟩
  · obtain ⟨o, h1, h2⟩ := generateVerifyPhase_flags env t f
    exact ⟨f.repoRoot, o, by simp [hrr, h1], fun _ => rfl, h2⟩

/-- Helper: the generate workflow writes only the apiRoot, repoRoot and
output fields, each only when it was empty. -/
theorem generateRun_flags (env : Env) (t : GoTime) (f : Flags) :
    ∃ a rr o, (V1.CmdGenerateRun env t f).2.1 =
        { f with apiRoot := a, repoRoot := rr, output := o } ∧
      (f.apiRoot ≠ "" → a = f.apiRoot) ∧ (f.repoRoot ≠ "" → rr = f.repoRoot) ∧
      (f.output ≠ "" → o = f.output) := by
  have hphase : ∃ a rr o, (V1.CmdGenerateAPIRootPhase env t f).2.1 =
      { f with apiRoot := a, repoRoot := rr, output := o } ∧
      (f.apiRoot ≠ "" → a = f.apiRoot) ∧ (f.repoRoot ≠ "" → rr = f.repoRoot) ∧
      (f.output ≠ "" → o = f.output) := by
    unfold V1.CmdGenerateAPIRootPhase
    by_cases hr : f.apiRoot = ""
    · cases hcg : env.cloneGoogleapis with
      | error e =>
        exact ⟨f.apiRoot, f.repoRoot, f.output, by rw [if_pos hr], fun _ => rfl,
          fun _ => rfl, fun _ => rfl⟩
      | ok dir =>
        obtain ⟨rr, o, h1, h2, h3⟩ := generateRepoRootPhase_flags env t { f with apiRoot := dir }
        exact ⟨dir, rr, o, by simp [hr, hcg, withSteps, h1], fun hne => absurd hr hne, h2, h3⟩
    · obtain ⟨rr, o, h1, h2, h3⟩ := generateRepoRootPhase_flags env t f
      exact ⟨f.apiRoot, rr, o, by simp [hr, h1], fun _ => rfl, h2, h3⟩
  unfold V1.CmdGenerateRun
  by_cases hap : f.apiPath = ""
  · exact ⟨f.apiRoot, f.repoRoot, f.output, by rw [if_pos hap], fun _ => rfl, fun _ => rfl,
      fun _ => rfl⟩
  · cases hsl : env.supportedLanguages f.language with
    | false =>
      exact ⟨f.apiRoot, f.repoRoot, f.output, by simp [hap, hsl], fun _ => rfl, fun _ => rfl,
        fun _ => rfl⟩
    | true =>
      obtain ⟨a, rr, o, h1, h2, h3, h4⟩ := hphase
      exact ⟨a, rr, o, by simp [hap, hsl, h1], h2, h3, h4⟩

/-- C9 counterexample: the update-repo workflow writes the apiRoot field of
the parameter set after validation (when the flag was empty), refuting the
claim that no field is written by workflow logic. -/
theorem paramSet_readonly_counterexample :
    (V1.CmdUpdateRepoRun envOK t0 fEmpty).2.1.apiRoot ≠ fEmpty.apiRoot := by
  decide

/-- C9 amended: after validation the workflows never write language, apiPath,
generatorInput, push, githubToken or branch; only apiRoot, repoRoot and
output can be written, by the resolution and allocation steps, and each only
when it was initially empty. -/
theorem paramSet_writes_amended (env : Env) (t : GoTime) (f : Flags) :
    (∃ a rr o, (V1.CmdGenerateRun env t f).2.1 =
        { f with apiRoot := a, repoRoot := rr, output := o } ∧
      (f.apiRoot ≠ "" → a = f.apiRoot) ∧ (f.repoRoot ≠ "" → rr = f.repoRoot) ∧
      (f.output ≠ "" → o = f.output)) ∧
    (∃ a o, (V1.CmdUpdateRepoRun env t f).2.1 = { f with apiRoot := a, output := o } ∧
      (f.apiRoot ≠ "" → a = f.apiRoot) ∧ (f.output ≠ "" → o = f.output)) :=
  ⟨generateRun_flags env t f, updateRepoRun_flags env t f⟩

/-- C9 amended witness: with every input supplied, both workflows leave the
parameter set untouched. -/
theorem paramSet_writes_amended_witness :
    (V1.CmdGenerateRun envGen t0 fFull).2.1 = fFull ∧
    (V1.CmdUpdateRepoRun envOK t0 fFull).2.1 = fFull := by
  obtain ⟨⟨a, rr, o, h1, h2, h3, h4⟩, -⟩ := paramSet_writes_amended envGen t0 fFull
  obtain ⟨-, ⟨a2, o2, g1, g2, g3⟩⟩ := paramSet_writes_amended envOK t0 fFull
  constructor
  · rw [h1, h2 (by decide), h3 (by decide), h4 (by decide)]
  · rw [g1, g2 (by decide), g3 (by decide)]

/-- Helper: the driver-and-publish tail of first-variant update-repo never
returns nil: every path ends in an error, at latest the commit stub. -/
theorem updateRepoStepsPhase_ne_none (env : Env) (f : Flags) :
    (V1.CmdUpdateRepoStepsPhase env f).1 ≠ none := by
  unfold V1.CmdUpdateRepoStepsPhase
  cases hg : env.generate f.language f.apiRoot f.apiPath f.output f.generatorInput with
  | some e => simp
  | none =>
    cases hc : env.clean f.language f.output f.apiPath with
    | some e => simp
    | none =>
      cases hb : env.build f.language f.output f.apiPath with
      | some e => simp
      | none => simp [V1.commit]

/-- Helper: the language clone step of first-variant update-repo never
returns nil. -/
theorem updateRepoCloneLangPhase_ne_none (env : Env) (f : Flags) :
    (V1.CmdUpdateRepoCloneLangPhase env f).1 ≠ none := by
  unfold V1.CmdUpdateRepoCloneLangPhase
  cases hcl : env.cloneLanguageRepo f.language with
  | error e => simp
  | ok dir =>
    simpa [withSteps] using updateRepoStepsPhase_ne_none env f

/-- Helper: the output allocation step of first-variant update-repo never
returns nil. -/
theorem updateRepoOutputPhase_ne_none (env : Env) (t : GoTime) (f : Flags) :
    (V1.CmdUpdateRepoOutputPhase env t f).1 ≠ none := by
  unfold V1.CmdUpdateRepoOutputPhase
  by_cases hout : f.output = ""
  · rcases hdo : defaultOutput env t with ⟨r, tr⟩
    cases r with
    | error e => simp [hout]
    | ok path =>
      simpa [hout, withSteps] using
        updateRepoCloneLangPhase_ne_none env { f with output := path }
  · simpa [hout] using updateRepoCloneLangPhase_ne_none env f

/-- Helper: the apiRoot resolution step of first-variant update-repo never
returns nil. -/
theorem updateRepoAPIRootPhase_ne_none (env : Env) (t : GoTime) (f : Flags) :
    (V1.CmdUpdateRepoAPIRootPhase env t f).1 ≠ none := by
  unfold V1.CmdUpdateRepoAPIRootPhase
  by_cases hr : f.apiRoot = ""
  · cases hcg : env.cloneGoogleapis with
    | error e => simp [hr]
    | ok dir =>
      simpa [hr, hcg, withSteps] using
        updateRepoOutputPhase_ne_none env t { f with apiRoot := dir }
  · simpa [hr] using updateRepoOutputPhase_ne_none env t f

/-- Helper: the first-variant update-repo workflow never returns nil. -/
theorem updateRepoRun_ne_none (env : Env) (t : GoTime) (f : Flags) :
    (V1.CmdUpdateRepoRun env t f).1 ≠ none := by
  unfold V1.CmdUpdateRepoRun
  by_cases hap : f.apiPath = ""
  · simp [hap]
  · cases hsl : env.supportedLanguages f.language with
    | false => simp [hap, hsl]
    | true => simpa [hap, hsl] using updateRepoAPIRootPhase_ne_none env t f

/-- C10: the two orchestrator variants differ on the publish steps: the
first-variant commit and push always return the not-implemented errors, so
first-variant update-repo never returns success, while the second-variant
commit and push always return nil; on one concrete all-success input the
first-variant update-repo returns the commit error and the second-variant
update-repo returns success. -/
theorem publisher_variants_differ :
    V1.commit = some (GoError.errorf "commit is not implemented") ∧
    V1.push = some (GoError.errorf "push is not implemented") ∧
    V2.commit = none ∧
    V2.push = none ∧
    (∀ env t f, (V1.CmdUpdateRepoRun env t f).1 ≠ none) ∧
    (V1.CmdUpdateRepoRun envOK t0 fFull).1 =
      some (GoError.errorf "commit is not implemented") ∧
    V2.CmdUpdateRepoRun envV2OK fFull = none :=
  ⟨rfl, rfl, rfl, rfl, updateRepoRun_ne_none, by decide, rfl⟩
